import Mathlib

/-!
# Verification of the Kanbn GitHub Sync reconciliation engine

Shallow embedding of the card reconciliation and sync logic of the
`kanbn-github-sync` service (sources `src/types.ts` — which also holds the
Kanbn API client —, `src/config.ts`, `src/github.ts`, `src/sync.ts`).
JavaScript strings are modelled as Lean `String`s (length counts characters),
the remote Kanbn / GitHub services are modelled as explicit environments,
and the stateful orchestration loops become folds over explicit lists.
-/

namespace KGSync

/-! ## String helpers mirroring the JavaScript primitives used by the code -/

/-- Value of a nonempty run of decimal digits, as JS `parseInt(s, 10)` computes
it for an all-digit string. -/
def digitsToNat (ds : List Char) : Nat :=
  ds.foldl (fun n c => 10 * n + (c.toNat - 48)) 0

/-- `startsWithChars pat s` holds when `pat` is an initial segment of `s`
(JS `String.prototype.startsWith(pat)` on `s`). -/
def startsWithChars : List Char → List Char → Bool
  | [], _ => true
  | _ :: _, [] => false
  | p :: ps, c :: cs => p == c && startsWithChars ps cs

/-- Remove a literal leading pattern, returning the remainder on success. -/
def stripLead : List Char → List Char → Option (List Char)
  | [], s => some s
  | _ :: _, [] => none
  | p :: ps, c :: cs => if p == c then stripLead ps cs else none

/-- `containsChars s pat`: `pat` occurs contiguously in `s`
(JS `String.prototype.includes(pat)` on `s`). -/
def containsChars : List Char → List Char → Bool
  | [], pat => startsWithChars pat []
  | c :: tail, pat => startsWithChars pat (c :: tail) || containsChars tail pat

/-- JS `String.prototype.trim`: drop whitespace from both ends. -/
def trimChars (s : List Char) : List Char :=
  ((s.dropWhile Char.isWhitespace).reverse.dropWhile Char.isWhitespace).reverse

/-- JS `s.startsWith(pat)` on Lean strings. -/
def jsStartsWith (s pat : String) : Bool :=
  startsWithChars pat.toList s.toList

/-- JS `s.includes(pat)` on Lean strings. -/
def jsIncludes (s pat : String) : Bool :=
  containsChars s.toList pat.toList

/-- JS `s.trim()` on Lean strings. -/
def strTrim (s : String) : String :=
  String.mk (trimChars s.toList)

/-- JS `s.substring(0, n)` (for `0 ≤ n`; takes the whole string when `n` is
past the end). -/
def strTake (s : String) (n : Nat) : String :=
  String.mk (s.toList.take n)

/-! ## Data model: the card/board shapes read by `getAllBoardCards` -/

/-- A card as the board API returns it: exactly the fields `getAllBoardCards`
reads (`publicId`, `title`, `description?`, `listPublicId`). -/
structure CardInfo where
  publicId : String
  title : String
  description : Option String
  listPublicId : String
deriving Repr, DecidableEq

/-- One list of a board, with its cards, as returned by `GET /boards/{id}`. -/
structure BoardList where
  publicId : String
  name : String
  cards : List CardInfo
deriving Repr, DecidableEq

/-- A board snapshot: its lists (`board.lists`). -/
abbrev Board := List BoardList

/-! ## Issue-number extraction (getAllBoardCards, src/types.ts lines 705-730) -/

/-- The canonical title test `/^#(\d+):\s/`: a `#`, a nonempty digit run, `:`,
then a whitespace character; yields the parsed digit run. -/
def titlePrefixIssue (title : String) : Option Nat :=
  match title.toList with
  | '#' :: rest =>
    let ds := rest.takeWhile Char.isDigit
    if ds.isEmpty then none
    else
      match rest.dropWhile Char.isDigit with
      | ':' :: c :: _ => if c.isWhitespace then some (digitsToNat ds) else none
      | _ => none
  | _ => none

/-- Leftmost match of the pattern `pat ++ digits` (with a nonempty digit run)
inside a string, as the description regex `escaped(repositoryUrl)/issues/(\d+)`
finds it. -/
def urlIssueScanAux (pat : List Char) : List Char → Option Nat
  | [] => none
  | c :: tail =>
    match stripLead pat (c :: tail) with
    | some rest =>
      let ds := rest.takeWhile Char.isDigit
      if ds.isEmpty then urlIssueScanAux pat tail else some (digitsToNat ds)
    | none => urlIssueScanAux pat tail

/-- First issue number referenced as `<repositoryUrl>/issues/<digits>` inside a
card description. -/
def urlIssueScan (repositoryUrl description : String) : Option Nat :=
  urlIssueScanAux (repositoryUrl ++ "/issues/").toList description.toList

/-- Issue-number extraction for one card, as `getAllBoardCards` performs it:
the canonical title prefix `#<N>: ` first; only when that fails, the
repository issue-URL pattern inside the description. -/
def extractIssueNumber (repositoryUrl : String) (card : CardInfo) : Option Nat :=
  match titlePrefixIssue card.title with
  | some n => some n
  | none =>
    match card.description with
    | some d => urlIssueScan repositoryUrl d
    | none => none

/-! ## Duplicate processing (getAllBoardCards, src/types.ts lines 662-801) -/

/-- All cards of a board, in list order then card order — the traversal order
of the nested `for` loops. -/
def allCards (board : Board) : List CardInfo :=
  (board.map BoardList.cards).flatten

/-- The cards that resolve to issue number `n` (the `cardsByIssue` bucket for
`n`), in traversal order. -/
def cardsForIssue (repositoryUrl : String) (board : Board) (n : Nat) : List CardInfo :=
  (allCards board).filter (fun c => extractIssueNumber repositoryUrl c == some n)

/-- The canonical title tag `#<n>:` used by the duplicate-survivor test
`card.title.startsWith('#' + issueNumber + ':')`. -/
def canonicalTag (n : Nat) : String :=
  "#" ++ toString n ++ ":"

/-- The survivor for issue `n`: the first card whose title carries the
canonical tag, else the first card of the bucket (`cards.find(...) || cards[0]`;
for a single-card bucket this is that card). -/
def survivorFor (repositoryUrl : String) (board : Board) (n : Nat) : Option CardInfo :=
  match cardsForIssue repositoryUrl board n with
  | [] => none
  | c :: cs =>
    some ((List.find? (fun card => jsStartsWith card.title (canonicalTag n)) (c :: cs)).getD c)

/-- The duplicates marked for deletion for issue `n`: every bucket card whose
`publicId` differs from the survivor's. -/
def duplicatesFor (repositoryUrl : String) (board : Board) (n : Nat) : List CardInfo :=
  match survivorFor repositoryUrl board n with
  | none => []
  | some best => (cardsForIssue repositoryUrl board n).filter (fun c => c.publicId != best.publicId)

/-- First-occurrence deduplication, the key order of a JS `Map` filled by
insertion. -/
def firstDedupAux (seen : List Nat) : List Nat → List Nat
  | [] => []
  | n :: rest =>
    if seen.contains n then firstDedupAux seen rest
    else n :: firstDedupAux (n :: seen) rest

/-- Keys of `cardsByIssue` in insertion order. -/
def firstDedup (l : List Nat) : List Nat :=
  firstDedupAux [] l

/-- The distinct issue numbers extracted from the board, in first-encounter
order (the iteration order of `cardsByIssue.entries()`). -/
def issueNumbersOrder (repositoryUrl : String) (board : Board) : List Nat :=
  firstDedup ((allCards board).filterMap (extractIssueNumber repositoryUrl))

/-- The returned `cardMap` as an association list in key-insertion order:
one survivor per extracted issue number. -/
def cardMapList (repositoryUrl : String) (board : Board) : List (Nat × CardInfo) :=
  (issueNumbersOrder repositoryUrl board).filterMap
    (fun n => (survivorFor repositoryUrl board n).map (fun c => (n, c)))

/-- `Map.get` on the association-list model. -/
def lookupCard (m : List (Nat × CardInfo)) (k : Nat) : Option CardInfo :=
  match List.find? (fun p => p.1 == k) m with
  | some p => some p.2
  | none => none

/-- The `duplicatesToDelete` worklist: per issue number in insertion order, its
duplicates in bucket order. -/
def duplicatesToDelete (repositoryUrl : String) (board : Board) : List (Nat × CardInfo) :=
  (issueNumbersOrder repositoryUrl board).flatMap
    (fun n => (duplicatesFor repositoryUrl board n).map (fun c => (n, c)))

/-- `publicId`s submitted to `deleteCard`. -/
def deleteIds (repositoryUrl : String) (board : Board) : List String :=
  (duplicatesToDelete repositoryUrl board).map (fun p => p.2.publicId)

/-- The board as the next cycle's fetch would see it when every submitted
deletion succeeded and nothing else changed: the submitted cards removed. -/
def applyDeletions (repositoryUrl : String) (board : Board) : Board :=
  board.map (fun l =>
    { l with cards := l.cards.filter (fun c => !((deleteIds repositoryUrl board).contains c.publicId)) })

/-- Outcome of the initial `GET /boards/{id}` of `getAllBoardCards`. -/
inductive FetchResult where
  | ok (board : Board)
  | err (msg : String)
deriving Repr, DecidableEq

/-- Per-duplicate deletion log: `deleteCard` catches its own errors, so each
submission just records whether the remote accepted it. -/
def deletionLog (repositoryUrl : String) (board : Board) (deleteOk : String → Bool) :
    List (String × Bool) :=
  (duplicatesToDelete repositoryUrl board).map (fun p => (p.2.publicId, deleteOk p.2.publicId))

/-- The fallible body of `getAllBoardCards` (everything inside its `try`):
the only step that can throw is the initial board fetch — `deleteCard`
absorbs its own failures — and the map is fully built before any deletion
is attempted. -/
def getAllBoardCardsBody (repositoryUrl : String) (fetch : FetchResult)
    (deleteOk : String → Bool) :
    Except String (List (Nat × CardInfo) × List (String × Bool)) :=
  match fetch with
  | .err m => .error m
  | .ok board => .ok (cardMapList repositoryUrl board, deletionLog repositoryUrl board deleteOk)

/-- The whole `getAllBoardCards` call: catch logs a warning and returns the
`cardMap` built so far — empty at the only possible failure point. -/
def getAllBoardCardsRun (repositoryUrl : String) (fetch : FetchResult)
    (deleteOk : String → Bool) :
    List (Nat × CardInfo) × List (String × Bool) :=
  match getAllBoardCardsBody repositoryUrl fetch deleteOk with
  | .ok r => r
  | .error _ => ([], [])

/-! ## The issue → list state machine (determineListForIssue, src/types.ts
lines 464-506)

The list names are the configuration interface record whose six properties the
function reads (`getListNames()` per spec §6: the configuration provider is an
external collaborator exposing `listNames`). -/

/-- The six workflow list names the Kanbn client reads off `getListNames()`. -/
structure ListNames where
  BACKLOG : String
  SELECTED : String
  IN_PROGRESS : String
  READY_FOR_QA : String
  QUALITY_ASSURANCE : String
  COMPLETED : String
deriving Repr, DecidableEq

/-- Issue state, `'open' | 'closed'`. -/
inductive IssueState where
  | isOpen
  | closed
deriving Repr, DecidableEq

/-- `user` field of a GitHub issue. -/
structure UserRef where
  login : String
  html_url : String
deriving Repr, DecidableEq

/-- One GitHub label (`{ name, color? }`). -/
structure LabelRef where
  name : String
  color : Option String
deriving Repr, DecidableEq

/-- A GitHub issue: the fields the reconciler reads. `pull_request` holds the
associated PR reference URL when the issue has one. -/
structure IssueInfo where
  number : Nat
  title : String
  body : Option String
  state : IssueState
  labels : List LabelRef
  html_url : String
  assignees : List String
  pull_request : Option String
  user : Option UserRef
deriving Repr, DecidableEq

/-- Linked pull-request data (`assignees`, `requested_reviewers`, `draft`). -/
structure PRInfo where
  assignees : List String
  requested_reviewers : List String
  draft : Bool
deriving Repr, DecidableEq

/-- `determineListForIssue(issue, pullRequest?)`: first matching rule wins.
Truthiness details from the source: `issue.pull_request && issue.pull_request.url`
requires a present, nonempty URL; the assignee/reviewer tests are
nonempty-array tests. -/
def determineListForIssue (listNames : ListNames) (issue : IssueInfo)
    (pullRequest : Option PRInfo) : String :=
  if issue.state = .closed then listNames.COMPLETED
  else
    match pullRequest with
    | some pr =>
      if pr.assignees.length > 0 || pr.requested_reviewers.length > 0 then
        listNames.QUALITY_ASSURANCE
      else if pr.draft then listNames.IN_PROGRESS
      else listNames.READY_FOR_QA
    | none =>
      if (match issue.pull_request with | some u => u != "" | none => false) then
        listNames.READY_FOR_QA
      else if issue.assignees.length > 0 then listNames.SELECTED
      else listNames.BACKLOG

/-! ## Card content derivation (syncIssueCard, src/types.ts lines 828-867) -/

/-- The Kanbn description size cap (`MAX_DESCRIPTION_LENGTH = 10000`). -/
def MAX_DESCRIPTION_LENGTH : Nat := 10000

/-- `assigneeLinks`: `[login](https://github.com/login)` joined by `, `. -/
def assigneeLinks (as : List String) : String :=
  String.intercalate ", " (as.map (fun a => "[" ++ a ++ "](https://github.com/" ++ a ++ ")"))

/-- The `descriptionParts` array: issue back-link, then author, then assignees
(each when present), then `\n\n---\n\n` plus the issue body when the body is a
nonempty string. -/
def descriptionParts (issue : IssueInfo) : List String :=
  ["GitHub Issue: [" ++ issue.html_url ++ "](" ++ issue.html_url ++ ")"]
  ++ (match issue.user with
      | some u => ["\nCreated by: [" ++ u.login ++ "](" ++ u.html_url ++ ")"]
      | none => [])
  ++ (if issue.assignees.length > 0 then ["\nAssigned to: " ++ assigneeLinks issue.assignees]
      else [])
  ++ (match issue.body with
      | some b => if b == "" then [] else ["\n\n---\n\n" ++ b]
      | none => [])

/-- `descriptionParts.join('')` before any truncation. -/
def rawDescription (issue : IssueInfo) : String :=
  String.join (descriptionParts issue)

/-- `issue.body?.length || 0`. -/
def bodyLength (issue : IssueInfo) : Nat :=
  match issue.body with
  | some b => b.length
  | none => 0

/-- The explicit truncation marker appended to truncated descriptions. -/
def truncationMessage (issue : IssueInfo) : String :=
  "\n\n... (truncated, original issue body was " ++ toString (bodyLength issue) ++ " characters)"

/-- The non-body header parts: `descriptionParts.filter((_, i) => i < length-1)`,
i.e. everything but the last part. -/
def headerParts (issue : IssueInfo) : List String :=
  (descriptionParts issue).dropLast

/-- `headerParts.join('')`. -/
def headerJoin (issue : IssueInfo) : String :=
  String.join (headerParts issue)

/-- `headerLength = headerParts.join('').length + '\n\n---\n\n'.length`. -/
def headerLength (issue : IssueInfo) : Nat :=
  (headerJoin issue).length + ("\n\n---\n\n" : String).length

/-- `availableLength` — space left for the body after the headers, the marker
and a 10-character buffer; may go negative. -/
def availableLength (issue : IssueInfo) : Int :=
  (MAX_DESCRIPTION_LENGTH : Int) - headerLength issue - (truncationMessage issue).length - 10

/-- `truncatedBody = issue.body ? issue.body.substring(0, Math.max(0, availableLength)) : ''`
(`Math.max(0, ·)` is `Int.toNat`). -/
def truncatedBody (issue : IssueInfo) : String :=
  match issue.body with
  | some b => strTake b (availableLength issue).toNat
  | none => ""

/-- The first truncation pass: headers, separator, truncated body, marker. -/
def secondDescription (issue : IssueInfo) : String :=
  String.join (headerParts issue
    ++ ["\n\n---\n\n" ++ truncatedBody issue ++ truncationMessage issue])

/-- `finalTruncation = MAX_DESCRIPTION_LENGTH - truncationMessage.length - 10`. -/
def finalTruncationLen (issue : IssueInfo) : Int :=
  (MAX_DESCRIPTION_LENGTH : Int) - (truncationMessage issue).length - 10

/-- The description actually sent: the raw join when it fits; otherwise the
body-truncating pass, hard-cut once more when even that exceeds the cap. -/
def composedDescription (issue : IssueInfo) : String :=
  if (rawDescription issue).length > MAX_DESCRIPTION_LENGTH then
    if (secondDescription issue).length > MAX_DESCRIPTION_LENGTH then
      strTake (secondDescription issue) (finalTruncationLen issue).toNat
        ++ truncationMessage issue
    else secondDescription issue
  else rawDescription issue

/-- The canonical card title `#<number>: <title>`. -/
def cardTitle (issue : IssueInfo) : String :=
  "#" ++ toString issue.number ++ ": " ++ issue.title

/-! ## Upsert decision (syncIssueCard, src/types.ts lines 869-886) -/

/-- `needsUpdate`: no existing card, or computed title / trimmed description /
target list differs from the existing card's values
(`existingCard?.description || ''` is `Option.getD _ ""`). -/
def needsUpdate (existing : Option CardInfo) (title description targetListId : String) : Bool :=
  match existing with
  | none => true
  | some c =>
    c.title != title
    || strTrim (c.description.getD "") != strTrim description
    || c.listPublicId != targetListId

/-- The card write request `syncIssueCard` issues, when one is issued at all. -/
inductive SyncOp where
  | noCardWrite
  | patchCard (cardId title description listPublicId : String)
  | postCard (title description listPublicId : String)
deriving Repr, DecidableEq

/-- Which card write the upsert decision produces (the non-404 path). -/
def syncCardOp (existing : Option CardInfo) (title description targetListId : String) : SyncOp :=
  if needsUpdate existing title description targetListId then
    match existing with
    | some c => .patchCard c.publicId title description targetListId
    | none => .postCard title description targetListId
  else .noCardWrite

/-- The boolean `syncIssueCard` returns on the non-404 path: `false` exactly
when no write was needed. -/
def syncCardReturn (existing : Option CardInfo) (title description targetListId : String) : Bool :=
  needsUpdate existing title description targetListId

/-- The card state recorded by a successful PATCH/POST: computed title,
description and list on the card id written. -/
def writtenCard (cardId title description targetListId : String) : CardInfo :=
  { publicId := cardId, title := title, description := some description,
    listPublicId := targetListId }

/-- Label writes of `mapLabels`: `getOrCreateLabel` creates (one POST) exactly
the labels missing from the board's label cache. -/
def labelWrites (cache : List String) (labels : List LabelRef) : Nat :=
  (labels.filter (fun l => !(cache.contains l.name))).length

/-- Write calls of one `syncIssueCard` pass (non-404 path): label creations
plus the card write when one is needed. Board and list ids come from the
process caches on a repeat pass, costing no writes. -/
def syncWriteCount (cache : List String) (existing : Option CardInfo)
    (title description targetListId : String) (labels : List LabelRef) : Nat :=
  labelWrites cache labels
  + (if needsUpdate existing title description targetListId then 1 else 0)

/-! ## Rate-limited request executor (kanbnRequest, src/types.ts lines 108-190) -/

/-- An HTTP response as `kanbnRequest` classifies it: the status code and the
error message extracted from the body (the parsed `message` field, or the raw
text). -/
structure HttpResp where
  status : Nat
  bodyMsg : String
deriving Repr, DecidableEq

/-- `response.ok`: a 2xx status. -/
def respOk (r : HttpResp) : Bool :=
  200 ≤ r.status && r.status < 300

/-- `isRateLimit`: 401 with a body containing `Rate limit`, or 429. -/
def isRateLimitResp (r : HttpResp) : Bool :=
  (r.status == 401 && jsIncludes r.bodyMsg "Rate limit") || r.status == 429

/-- `isServerError`: HTTP 500. -/
def isServerErrorResp (r : HttpResp) : Bool :=
  r.status == 500

/-- `maxRetries = 3`. -/
def maxRetries : Nat := 3

/-- `MIN_REQUEST_DELAY_MS = 650`. -/
def MIN_REQUEST_DELAY_MS : Nat := 650

/-- Result of a `kanbnRequest` call chain. -/
inductive KanbnOutcome where
  | success
  | rateLimitExceeded
  | apiError (status : Nat)
deriving Repr, DecidableEq

/-- The retry loop of `kanbnRequest`: attempt `retryCount` receives response
`resp retryCount`; rate-limit/500 responses retry while `retryCount <
maxRetries`, then fail with the rate-limit-exceeded error. Returns the outcome
and the number of HTTP attempts performed. -/
def kanbnRun (resp : Nat → HttpResp) (retryCount : Nat) : KanbnOutcome × Nat :=
  let r := resp retryCount
  if respOk r then (.success, 1)
  else if isRateLimitResp r || isServerErrorResp r then
    if h : retryCount < maxRetries then
      let t := kanbnRun resp (retryCount + 1)
      (t.1, t.2 + 1)
    else (.rateLimitExceeded, 1)
  else (.apiError r.status, 1)
termination_by maxRetries - retryCount
decreasing_by omega

/-- The randomized backoff: `waitSeconds = Math.floor((1 + Math.random()) * 60)`. -/
def waitSecondsOf (rnd : ℚ) : ℤ :=
  ⌊(1 + rnd) * 60⌋

/-- The rate-limit gate: with the previous request at `lastRequestTime` and the
current call at `now`, the request goes out only once
`MIN_REQUEST_DELAY_MS` has elapsed (an idealized `setTimeout`). -/
def nextSendTime (lastRequestTime now : Nat) : Nat :=
  if now - lastRequestTime < MIN_REQUEST_DELAY_MS then lastRequestTime + MIN_REQUEST_DELAY_MS
  else now

/-! ## The 404 self-healing path (syncIssueCard, src/types.ts lines 888-980) -/

/-- Outcome of one PATCH attempt on a card id. -/
inductive UpdateOutcome where
  | ok
  | notFound
  | otherError (msg : String)
deriving Repr, DecidableEq

/-- The remote behaviour one `syncIssueCard` call can observe: per-card-id
update outcomes, the card the `k`-th board re-scan resolves for this issue
number, and whether card creation succeeds. -/
structure SyncEnv where
  update : String → UpdateOutcome
  rescan : Nat → Option CardInfo
  createOk : Bool

/-- How one `syncIssueCard` call ended. -/
inductive SyncResult where
  | noWrite
  | wroteUpdate
  | wroteCreate
  | errNotFound
  | errOther (msg : String)
  | errCreate
deriving Repr, DecidableEq

/-- Observable trace of one `syncIssueCard` call: its result, how many board
re-scans it ran, which card ids it tried to PATCH, and whether it POSTed a new
card. -/
structure SyncTrace where
  result : SyncResult
  rescans : Nat
  updatesTried : List String
  createTried : Bool
deriving Repr, DecidableEq

/-- The create fallback at the end of `syncIssueCard`. -/
def createStep (env : SyncEnv) : SyncTrace :=
  if env.createOk then ⟨.wroteCreate, 0, [], true⟩
  else ⟨.errCreate, 0, [], true⟩

/-- `syncIssueCard`'s control flow from the upsert decision on, for a target
list / title / description already computed: `needsUpd` is the `needsUpdate`
test against the computed values. On a PATCH 404 the board is re-scanned once
(`rescanIdx` counts re-scans so far); a different card found while
`recursionDepth < 1` is retried by recursion, otherwise the call falls through
to creation. Non-404 PATCH failures propagate. -/
def syncCardFlow (env : SyncEnv) (needsUpd : CardInfo → Bool) :
    Option CardInfo → (depth : Nat) → (rescanIdx : Nat) → SyncTrace
  | none, _, _ => createStep env
  | some c, depth, rescanIdx =>
    if !(needsUpd c) then ⟨.noWrite, 0, [], false⟩
    else
      match env.update c.publicId with
      | .ok => ⟨.wroteUpdate, 0, [c.publicId], false⟩
      | .otherError m => ⟨.errOther m, 0, [c.publicId], false⟩
      | .notFound =>
        match env.rescan rescanIdx with
        | some c2 =>
          if h : c2.publicId ≠ c.publicId ∧ depth < 1 then
            let t := syncCardFlow env needsUpd (some c2) (depth + 1) (rescanIdx + 1)
            ⟨t.result, t.rescans + 1, c.publicId :: t.updatesTried, t.createTried⟩
          else
            let t := createStep env
            ⟨t.result, t.rescans + 1, [c.publicId], t.createTried⟩
        | none =>
          let t := createStep env
          ⟨t.result, t.rescans + 1, [c.publicId], t.createTried⟩
termination_by _ depth _ => 1 - depth
decreasing_by omega

/-! ## Phase-2 orchestration (syncAllRepositories, src/sync.ts lines 70-167) -/

/-- Outcome of `fetchGitHubIssues` for one repository. -/
inductive FetchIssuesResult where
  | ok (issues : List Nat)
  | rateLimitErr
  | otherErr (msg : String)
deriving Repr, DecidableEq

/-- Outcome of syncing one issue. -/
inductive IssueSyncResult where
  | synced (wrote : Bool)
  | failed (msg : String)
deriving Repr, DecidableEq

/-- Environment of one reconciliation phase: which boards were provisioned in
phase 1, each repository's issue fetch, each issue's sync outcome, and whether
an issue already had a card. -/
structure Phase2Env where
  boardReady : String → Bool
  fetchIssues : String → FetchIssuesResult
  syncIssue : String → Nat → IssueSyncResult
  hadCard : String → Nat → Bool

/-- Per-repository counters, plus how many issues were attempted. -/
structure RepoCounts where
  created : Nat
  updated : Nat
  errors : Nat
  attempted : Nat
deriving Repr, DecidableEq

/-- One iteration of the per-issue loop: a failure only increments `errors`;
a success counts as created (no prior card) or updated (a write occurred). -/
def countsStep (env : Phase2Env) (repo : String) (acc : RepoCounts) (i : Nat) : RepoCounts :=
  match env.syncIssue repo i with
  | .synced wrote =>
    if !(env.hadCard repo i) then
      { acc with created := acc.created + 1, attempted := acc.attempted + 1 }
    else if wrote then
      { acc with updated := acc.updated + 1, attempted := acc.attempted + 1 }
    else { acc with attempted := acc.attempted + 1 }
  | .failed _ => { acc with errors := acc.errors + 1, attempted := acc.attempted + 1 }

/-- The per-issue loop over a repository's fetched issues. -/
def runIssues (env : Phase2Env) (repo : String) (issues : List Nat) : RepoCounts :=
  issues.foldl (countsStep env repo) ⟨0, 0, 0, 0⟩

/-- What phase 2 reports for one repository. -/
inductive RepoOutcome where
  | counts (c : RepoCounts)
  | skippedBoard
  | fetchFailed
deriving Repr, DecidableEq

/-- The phase-2 loop: repositories whose board setup failed are skipped; a
rate-limit failure of the issue fetch `break`s out of the loop so every
remaining repository is skipped; any other fetch failure is caught by the
per-repository handler and the loop continues. -/
def phase2 (env : Phase2Env) : List String → List (String × RepoOutcome)
  | [] => []
  | repo :: rest =>
    if !(env.boardReady repo) then (repo, .skippedBoard) :: phase2 env rest
    else
      match env.fetchIssues repo with
      | .rateLimitErr => [(repo, .fetchFailed)]
      | .otherErr _ => (repo, .fetchFailed) :: phase2 env rest
      | .ok issues => (repo, .counts (runIssues env repo issues)) :: phase2 env rest

/-- Whether an issue-sync outcome is a failure (caught by the per-issue
handler). -/
def isFailedSync : IssueSyncResult → Bool
  | .failed _ => true
  | .synced _ => false

/-! ## The extraction tier claimed by the spec but absent from the source -/

/-- Modelled from the spec: the claimed final extraction tier, a loose scan of
the card title for the first `#<digits>` occurrence (`/#(\d+)/`). The current
`getAllBoardCards` has no such tier — this definition exists only to state the
spec's claim against the source's two-tier `extractIssueNumber`. -/
def specLooseTitleScanAux : List Char → Option Nat
  | [] => none
  | '#' :: rest =>
    let ds := rest.takeWhile Char.isDigit
    if ds.isEmpty then specLooseTitleScanAux rest else some (digitsToNat ds)
  | _ :: rest => specLooseTitleScanAux rest

/-- Modelled from the spec: loose title scan, see `specLooseTitleScanAux`. -/
def specLooseTitleScan (title : String) : Option Nat :=
  specLooseTitleScanAux title.toList

/-! ## Concrete sample data used to evaluate the theorems -/

/-- Sample configured list names. -/
def sampleListNames : ListNames :=
  { BACKLOG := "B", SELECTED := "S", IN_PROGRESS := "P", READY_FOR_QA := "R",
    QUALITY_ASSURANCE := "Q", COMPLETED := "C" }

/-- A bare open issue. -/
def sampleIssue : IssueInfo :=
  { number := 1, title := "T", body := none, state := .isOpen, labels := [],
    html_url := "u", assignees := [], pull_request := none, user := none }

/-- A PR with one requested reviewer. -/
def samplePR : PRInfo :=
  { assignees := [], requested_reviewers := ["alice"], draft := false }

/-- The card a first `syncIssueCard` pass writes for `sampleIssue` in list `L`. -/
def sampleSyncedCard : CardInfo :=
  { publicId := "p", title := "#1: T", description := some (composedDescription sampleIssue),
    listPublicId := "L" }

/-- A card with a loose `#12` title mention and no description. -/
def sampleLooseCard : CardInfo :=
  { publicId := "card-a", title := "Fix #12 login bug", description := none,
    listPublicId := "list-1" }

/-- A canonical-title card whose description URL points at a different issue. -/
def sampleTaggedCard : CardInfo :=
  { publicId := "c", title := "#7: Fix",
    description := some "https://github.com/acme/app/issues/9", listPublicId := "l" }

/-- A response that is always HTTP 429. -/
def sampleResp429 : Nat → HttpResp :=
  fun _ => { status := 429, bodyMsg := "" }

/-- The sample repository URL. -/
def sampleRepoUrl : String := "https://github.com/acme/app"

/-- A legacy card for issue 5: no canonical title prefix, matched through the
issue URL in its description. -/
def cNoTag : CardInfo :=
  { publicId := "x", title := "Legacy card",
    description := some "https://github.com/acme/app/issues/5", listPublicId := "L1" }

/-- A canonical card for issue 5. -/
def cTagged : CardInfo :=
  { publicId := "y", title := "#5: Fix thing", description := none,
    listPublicId := "L1" }

/-- A board with two cards resolving to issue 5, the legacy one first. -/
def dupBoard : Board :=
  [{ publicId := "L1", name := "list", cards := [cNoTag, cTagged] }]

/-- Cards used to exercise the 404-recovery path. -/
def cardA : CardInfo :=
  { publicId := "a", title := "ta", description := none, listPublicId := "l" }

/-- See `cardA`. -/
def cardB : CardInfo :=
  { publicId := "b", title := "tb", description := none, listPublicId := "l" }

/-- See `cardA`. -/
def cardC : CardInfo :=
  { publicId := "c", title := "tc", description := none, listPublicId := "l" }

/-- A remote where every PATCH reports not-found, every re-scan resolves a
fresh different card, and creation succeeds. -/
def envDouble404 : SyncEnv :=
  { update := fun _ => .notFound,
    rescan := fun k => if k == 0 then some cardB else some cardC,
    createOk := true }

/-- A remote where the first PATCH reports not-found, the re-scan resolves
`cardB`, and the PATCH on `cardB` succeeds. -/
def envRecover : SyncEnv :=
  { update := fun cid => if cid == "b" then .ok else .notFound,
    rescan := fun _ => some cardB,
    createOk := true }

/-- A phase-2 environment whose every issue fetch is rate-limited and where
issue 1 fails to sync. -/
def samplePhase2Env : Phase2Env :=
  { boardReady := fun _ => true,
    fetchIssues := fun _ => .rateLimitErr,
    syncIssue := fun _ i => if i == 1 then .failed "boom" else .synced true,
    hadCard := fun _ _ => false }

/-- A 10001-character issue body. -/
def sampleBigBody : String :=
  String.mk (List.replicate 10001 'a')

/-- An issue whose composed description exceeds the 10000-character cap. -/
def sampleBigIssue : IssueInfo :=
  { number := 2, title := "Big", body := some sampleBigBody, state := .isOpen,
    labels := [], html_url := "u", assignees := [], pull_request := none, user := none }

/-! ## Theorems -/

/-- Helper: a rate-limit/500-class response is never `ok`. -/
theorem respOk_false_of_limited (r : HttpResp)
    (h : (isRateLimitResp r || isServerErrorResp r) = true) : respOk r = false := by
  simp only [isRateLimitResp, isServerErrorResp, Bool.or_eq_true, Bool.and_eq_true,
    beq_iff_eq] at h
  rcases h with (⟨h401, _⟩ | h429) | h500 <;> simp [respOk] <;> omega

/-- C3: `determineListForIssue` is a pure function of the
(issue, optional PR, configured list names) data and selects the target list
by the first matching rule of the strict priority order: closed → Completed;
PR with an assignee or requested reviewer → Quality-Assurance; draft PR →
In Progress; other PR → Ready-for-QA; a pull-request reference URL without PR
data → Ready-for-QA; an assigned issue → Selected; otherwise Backlog. -/
theorem determineList_priority (ln : ListNames) (issue : IssueInfo) (p : PRInfo)
    (u : String) :
    (issue.state = .closed →
      determineListForIssue ln issue none = ln.COMPLETED
      ∧ determineListForIssue ln issue (some p) = ln.COMPLETED)
    ∧ (issue.state = .isOpen → (p.assignees ≠ [] ∨ p.requested_reviewers ≠ []) →
        determineListForIssue ln issue (some p) = ln.QUALITY_ASSURANCE)
    ∧ (issue.state = .isOpen → p.assignees = [] → p.requested_reviewers = [] →
        p.draft = true →
        determineListForIssue ln issue (some p) = ln.IN_PROGRESS)
    ∧ (issue.state = .isOpen → p.assignees = [] → p.requested_reviewers = [] →
        p.draft = false →
        determineListForIssue ln issue (some p) = ln.READY_FOR_QA)
    ∧ (issue.state = .isOpen → issue.pull_request = some u → u ≠ "" →
        determineListForIssue ln issue none = ln.READY_FOR_QA)
    ∧ (issue.state = .isOpen → (issue.pull_request = none ∨ issue.pull_request = some "") →
        issue.assignees ≠ [] →
        determineListForIssue ln issue none = ln.SELECTED)
    ∧ (issue.state = .isOpen → (issue.pull_request = none ∨ issue.pull_request = some "") →
        issue.assignees = [] →
        determineListForIssue ln issue none = ln.BACKLOG) := by
  refine ⟨fun hc => ⟨?_, ?_⟩, fun ho hor => ?_, fun ho ha hr hd => ?_,
    fun ho ha hr hd => ?_, fun ho hu hne => ?_, fun ho hpr ha => ?_, fun ho hpr ha => ?_⟩
  · simp [determineListForIssue, hc]
  · simp [determineListForIssue, hc]
  · rcases hor with h | h <;>
      simp [determineListForIssue, ho, List.length_pos, h]
  · simp [determineListForIssue, ho, ha, hr, hd]
  · simp [determineListForIssue, ho, ha, hr, hd]
  · simp [determineListForIssue, ho, hu, hne]
  · rcases hpr with h | h <;>
      simp [determineListForIssue, ho, h, List.length_pos, ha]
  · rcases hpr with h | h <;>
      simp [determineListForIssue, ho, h, ha]

/-- C3 witness: an open issue with a PR that has a requested reviewer lands in
the configured Quality-Assurance list. -/
theorem determineList_priority_witness :
    sampleIssue.state = .isOpen
    ∧ determineListForIssue sampleListNames sampleIssue (some samplePR)
      = sampleListNames.QUALITY_ASSURANCE :=
  ⟨rfl,
    (determineList_priority sampleListNames sampleIssue samplePR "").2.1 rfl
      (Or.inr (by simp [samplePR]))⟩

/-- C10: `getAllBoardCards` never propagates an error: when the board fetch
fails the call returns the empty map (and an empty deletion log); when it
succeeds the call returns the full survivor map, whatever the per-card
deletion outcomes are — the only throwing step inside the `try` is the fetch
itself. -/
theorem getAllBoardCards_total (repositoryUrl msg : String) (board : Board)
    (deleteOk : String → Bool) :
    getAllBoardCardsRun repositoryUrl (.err msg) deleteOk = ([], [])
    ∧ getAllBoardCardsRun repositoryUrl (.ok board) deleteOk
      = (cardMapList repositoryUrl board, deletionLog repositoryUrl board deleteOk)
    ∧ getAllBoardCardsBody repositoryUrl (.err msg) deleteOk = .error msg :=
  ⟨rfl, rfl, rfl⟩

/-- C7 counterexample: the source's extractor has no loose-title-scan tier — a
card whose title mentions `#12` without the canonical prefix and whose
description carries no issue URL resolves to no issue number, while the
claimed third tier would resolve it to 12. -/
theorem extract_no_loose_tier :
    extractIssueNumber "https://github.com/acme/app" sampleLooseCard = none
    ∧ specLooseTitleScan sampleLooseCard.title = some 12 :=
  ⟨rfl, rfl⟩

/-- C7 (amended): card issue-number extraction has exactly two tiers in a
defined priority order — the canonical title prefix `#<N>: ` first, and only
when that fails the repository issue-URL pattern inside the description; a
card matching the title tier is never re-resolved by the description tier. -/
theorem extract_two_tier (url : String) (card : CardInfo) (n : Nat) :
    (titlePrefixIssue card.title = some n → extractIssueNumber url card = some n)
    ∧ (titlePrefixIssue card.title = none →
        extractIssueNumber url card
          = match card.description with
            | some d => urlIssueScan url d
            | none => none) := by
  constructor
  · intro h
    simp [extractIssueNumber, h]
  · intro h
    simp [extractIssueNumber, h]

/-- C7 witness: a canonical title `#7: ` wins over a description URL that
points at issue 9. -/
theorem extract_two_tier_witness :
    titlePrefixIssue sampleTaggedCard.title = some 7
    ∧ extractIssueNumber "https://github.com/acme/app" sampleTaggedCard = some 7 :=
  ⟨rfl, (extract_two_tier "https://github.com/acme/app" sampleTaggedCard 7).1 rfl⟩

/-- Helper: one retrying step of `kanbnRun` on a rate-limit/500 response. -/
theorem kanbnRun_limited_step (resp : Nat → HttpResp) (k : Nat)
    (h : (isRateLimitResp (resp k) || isServerErrorResp (resp k)) = true)
    (hk : k < maxRetries) :
    kanbnRun resp k = ((kanbnRun resp (k + 1)).1, (kanbnRun resp (k + 1)).2 + 1) := by
  rw [kanbnRun]
  simp [respOk_false_of_limited _ h, h, hk]

/-- Helper: the final attempt of `kanbnRun` on a rate-limit/500 response. -/
theorem kanbnRun_limited_last (resp : Nat → HttpResp)
    (h : (isRateLimitResp (resp maxRetries) || isServerErrorResp (resp maxRetries)) = true) :
    kanbnRun resp maxRetries = (.rateLimitExceeded, 1) := by
  rw [kanbnRun]
  simp [respOk_false_of_limited _ h, h]

/-- C5: under persistently rate-limited (429 / rate-limit 401 / 500) responses,
`kanbnRequest` performs at most 3 retries — exactly 4 HTTP attempts from a
fresh call — and fails with the rate-limit-exceeded error; each backoff wait
`Math.floor((1 + Math.random()) * 60)` lies within 60–120 seconds; and the
outbound gate never lets a request go out less than `MIN_REQUEST_DELAY_MS =
650` ms after the previous one. -/
theorem kanbnRequest_rate_limit_bound (resp : Nat → HttpResp) (rnd : ℚ)
    (lastRequestTime now : Nat)
    (hper : ((List.range (maxRetries + 1)).all
      (fun k => isRateLimitResp (resp k) || isServerErrorResp (resp k))) = true)
    (h0 : 0 ≤ rnd) (h1 : rnd < 1) :
    kanbnRun resp 0 = (.rateLimitExceeded, maxRetries + 1)
    ∧ 60 ≤ waitSecondsOf rnd ∧ waitSecondsOf rnd ≤ 120
    ∧ MIN_REQUEST_DELAY_MS ≤ nextSendTime lastRequestTime now - lastRequestTime := by
  have hall : ∀ k, k < maxRetries + 1 →
      (isRateLimitResp (resp k) || isServerErrorResp (resp k)) = true := by
    intro k hk
    have := List.all_eq_true.mp hper k (List.mem_range.mpr hk)
    simpa using this
  refine ⟨?_, ?_, ?_, ?_⟩
  · have e3 := kanbnRun_limited_last resp (hall maxRetries (by omega))
    have e2 := kanbnRun_limited_step resp 2 (hall 2 (by norm_num [maxRetries]))
      (by norm_num [maxRetries])
    have e1 := kanbnRun_limited_step resp 1 (hall 1 (by norm_num [maxRetries]))
      (by norm_num [maxRetries])
    have e0 := kanbnRun_limited_step resp 0 (hall 0 (by norm_num [maxRetries]))
      (by norm_num [maxRetries])
    simp only [maxRetries] at e3 ⊢
    rw [e0, e1, e2, e3]
  · have hx : (60 : ℚ) ≤ (1 + rnd) * 60 := by nlinarith
    exact Int.le_floor.mpr (by exact_mod_cast hx)
  · have hx : ((1 + rnd) * 60 : ℚ) ≤ 120 := by nlinarith
    have := Int.floor_le_floor (α := ℚ) hx
    simpa [waitSecondsOf] using this
  · unfold nextSendTime
    split <;> omega

/-- C5 witness: a server that always answers 429 exhausts the retries after 4
attempts; a zero random draw waits 60 seconds; back-to-back calls are spaced
650 ms. -/
theorem kanbnRequest_rate_limit_bound_witness :
    ((List.range (maxRetries + 1)).all
      (fun k => isRateLimitResp (sampleResp429 k) || isServerErrorResp (sampleResp429 k))) = true
    ∧ (0 : ℚ) ≤ 0 ∧ (0 : ℚ) < 1
    ∧ (kanbnRun sampleResp429 0 = (.rateLimitExceeded, maxRetries + 1)
        ∧ 60 ≤ waitSecondsOf 0 ∧ waitSecondsOf 0 ≤ 120
        ∧ MIN_REQUEST_DELAY_MS ≤ nextSendTime 0 0 - 0) :=
  ⟨by decide, le_refl 0, zero_lt_one,
    kanbnRequest_rate_limit_bound sampleResp429 0 0 0 (by decide)
      (le_refl 0) zero_lt_one⟩

/-- C4: when the existing card already carries the computed title, trimmed
description and target list, `syncIssueCard` issues no card create/update/
delete request and returns `false`; and a card as written by a first pass,
with the labels already cached, makes the second pass perform zero write
calls. -/
theorem syncIssueCard_idempotent (issue : IssueInfo) (c : CardInfo)
    (targetListId cardId : String) (cache : List String)
    (ht : c.title = cardTitle issue)
    (hd : strTrim (c.description.getD "") = strTrim (composedDescription issue))
    (hl : c.listPublicId = targetListId)
    (hcache : (issue.labels.all (fun l => cache.contains l.name)) = true) :
    syncCardOp (some c) (cardTitle issue) (composedDescription issue) targetListId
      = .noCardWrite
    ∧ syncCardReturn (some c) (cardTitle issue) (composedDescription issue) targetListId
      = false
    ∧ syncWriteCount cache
        (some (writtenCard cardId (cardTitle issue) (composedDescription issue) targetListId))
        (cardTitle issue) (composedDescription issue) targetListId issue.labels = 0 := by
  have hnu : needsUpdate (some c) (cardTitle issue) (composedDescription issue)
      targetListId = false := by
    simp [needsUpdate, ht, hd, hl]
  have hnu2 : needsUpdate
      (some (writtenCard cardId (cardTitle issue) (composedDescription issue) targetListId))
      (cardTitle issue) (composedDescription issue) targetListId = false := by
    simp [needsUpdate, writtenCard]
  refine ⟨?_, ?_, ?_⟩
  · simp [syncCardOp, hnu]
  · simp [syncCardReturn, hnu]
  · have hlw : labelWrites cache issue.labels = 0 := by
      simp only [labelWrites, List.length_eq_zero, List.filter_eq_nil_iff]
      intro l hl
      simpa using List.all_eq_true.mp hcache l hl
    simp [syncWriteCount, hnu2, hlw]

/-- C4 witness: an unchanged issue with its first-pass card triggers no write. -/
theorem syncIssueCard_idempotent_witness :
    sampleSyncedCard.title = cardTitle sampleIssue
    ∧ syncCardReturn (some sampleSyncedCard) (cardTitle sampleIssue)
        (composedDescription sampleIssue) "L" = false :=
  ⟨rfl,
    (syncIssueCard_idempotent sampleIssue sampleSyncedCard "L" "p" [] rfl rfl rfl
      rfl).2.1⟩

/-- Helper: a string starts with itself followed by anything. -/
theorem startsWithChars_append_self : ∀ (p rest : List Char),
    startsWithChars p (p ++ rest) = true
  | [], _ => rfl
  | c :: cs, rest => by
    simp [startsWithChars, startsWithChars_append_self cs rest]

/-- Helper: a trailing pattern is found by `containsChars`. -/
theorem containsChars_append_self : ∀ (a pat : List Char),
    containsChars (a ++ pat) pat = true
  | [], pat => by
    cases pat with
    | nil => rfl
    | cons q qs =>
      have h := startsWithChars_append_self (q :: qs) []
      rw [List.append_nil] at h
      simp [containsChars, h]
  | x :: xs, pat => by
    simp [containsChars, containsChars_append_self xs pat]

/-- Helper: `jsStartsWith` accepts the first summand of an append. -/
theorem jsStartsWith_append_self (a b : String) : jsStartsWith (a ++ b) a = true := by
  unfold jsStartsWith
  rw [show (a ++ b).toList = a.toList ++ b.toList from String.data_append a b]
  exact startsWithChars_append_self _ _

/-- Helper: `jsIncludes` finds the second summand of an append. -/
theorem jsIncludes_append_self (a b : String) : jsIncludes (a ++ b) b = true := by
  unfold jsIncludes
  rw [show (a ++ b).toList = a.toList ++ b.toList from String.data_append a b]
  exact containsChars_append_self _ _

/-- Helper: `String.join` distributes over a cons. -/
theorem join_cons_eq (s : String) (l : List String) :
    String.join (s :: l) = s ++ String.join l := by
  rw [String.join_eq, String.join_eq]
  rfl

/-- Helper: `String.join` peels a final singleton. -/
theorem join_append_singleton : ∀ (l : List String) (x : String),
    String.join (l ++ [x]) = String.join l ++ x
  | [], x => by
    show String.join [x] = String.join [] ++ x
    rw [join_cons_eq]
    show x ++ "" = "" ++ x
    rw [String.append_empty, String.empty_append]
  | s :: l, x => by
    show String.join (s :: (l ++ [x])) = String.join (s :: l) ++ x
    rw [join_cons_eq, join_append_singleton l x, join_cons_eq, String.append_assoc]

/-- Helper: length of `strTake`. -/
theorem strTake_length (s : String) (n : Nat) : (strTake s n).length = min n s.length := by
  show (s.toList.take n).length = min n s.length
  rw [List.length_take]
  rfl

/-- Helper: `strTake` keeps an initial summand it covers. -/
theorem strTake_append_of_le (a b : String) (k : Nat) (h : a.length ≤ k) :
    strTake (a ++ b) k = a ++ strTake b (k - a.length) := by
  have h' : a.toList.length ≤ k := h
  unfold strTake
  rw [show (a ++ b).toList = a.toList ++ b.toList from String.data_append a b,
    List.take_append_eq_append_take, List.take_of_length_le h']
  rfl

/-- Helper: the first truncation pass splits as headers ++ rest. -/
theorem secondDescription_eq (issue : IssueInfo) :
    secondDescription issue
      = headerJoin issue
        ++ ("\n\n---\n\n" ++ truncatedBody issue ++ truncationMessage issue) := by
  unfold secondDescription headerJoin
  exact join_append_singleton _ _

/-- Helper: the truncation marker is a nonempty string. -/
theorem truncationMessage_pos (issue : IssueInfo) : 0 < (truncationMessage issue).length := by
  unfold truncationMessage
  rw [String.length_append, String.length_append]
  have h : (0 : Nat) < ("\n\n... (truncated, original issue body was " : String).length := by
    decide
  omega

/-- C6: when the composed description exceeds the 10000-character cap, the
description actually sent is at most the cap long (hence strictly shorter than
cap + marker), contains the explicit truncation marker, and — whenever the
non-body header fields themselves leave room for the marker and buffer — still
starts with the untouched header fields, so the headers are preserved in
preference to the issue body. (`htm` holds for every issue whose body is less
than about `10^9950` characters, far beyond any real string.) -/
theorem description_truncation_safety (issue : IssueInfo)
    (hover : (rawDescription issue).length > MAX_DESCRIPTION_LENGTH)
    (htm : (truncationMessage issue).length + 10 ≤ MAX_DESCRIPTION_LENGTH) :
    (composedDescription issue).length ≤ MAX_DESCRIPTION_LENGTH
    ∧ (composedDescription issue).length
        < MAX_DESCRIPTION_LENGTH + (truncationMessage issue).length
    ∧ jsIncludes (composedDescription issue) (truncationMessage issue) = true
    ∧ ((headerJoin issue).length + (truncationMessage issue).length + 10
          ≤ MAX_DESCRIPTION_LENGTH →
        jsStartsWith (composedDescription issue) (headerJoin issue) = true) := by
  have hmpos := truncationMessage_pos issue
  have hft : (finalTruncationLen issue).toNat
      = MAX_DESCRIPTION_LENGTH - (truncationMessage issue).length - 10 := by
    unfold finalTruncationLen
    omega
  by_cases hd2 : (secondDescription issue).length > MAX_DESCRIPTION_LENGTH
  · -- the final hard cut fires
    have hcomp : composedDescription issue
        = strTake (secondDescription issue) (finalTruncationLen issue).toNat
          ++ truncationMessage issue := by
      unfold composedDescription
      rw [if_pos hover, if_pos hd2]
    have hlen : (composedDescription issue).length
        = min (finalTruncationLen issue).toNat (secondDescription issue).length
          + (truncationMessage issue).length := by
      rw [hcomp, String.length_append, strTake_length]
    refine ⟨?_, ?_, ?_, ?_⟩
    · rw [hlen, hft]
      omega
    · rw [hlen, hft]
      omega
    · rw [hcomp]
      exact jsIncludes_append_self _ _
    · intro hh
      have hhk : (headerJoin issue).length ≤ (finalTruncationLen issue).toNat := by
        rw [hft]; omega
      have hsplit : strTake (secondDescription issue) (finalTruncationLen issue).toNat
          = headerJoin issue
            ++ strTake ("\n\n---\n\n" ++ truncatedBody issue ++ truncationMessage issue)
                ((finalTruncationLen issue).toNat - (headerJoin issue).length) := by
        rw [secondDescription_eq issue]
        exact strTake_append_of_le _ _ _ hhk
      rw [hcomp, hsplit, String.append_assoc]
      exact jsStartsWith_append_self _ _
  · -- the body-truncating pass already fits
    have hcomp : composedDescription issue = secondDescription issue := by
      unfold composedDescription
      rw [if_pos hover, if_neg hd2]
    refine ⟨?_, ?_, ?_, ?_⟩
    · rw [hcomp]; omega
    · rw [hcomp]; omega
    · rw [hcomp, secondDescription_eq issue, ← String.append_assoc]
      exact jsIncludes_append_self _ _
    · intro hh
      rw [hcomp, secondDescription_eq issue]
      exact jsStartsWith_append_self _ _

/-- Helper: the sample big body has 10001 characters. -/
theorem sampleBigBody_length : sampleBigBody.length = 10001 := by
  show (List.replicate 10001 'a').length = 10001
  exact List.length_replicate 10001 'a'

/-- Helper: the sample big issue's parts are the back-link and the body part. -/
theorem sampleBigIssue_parts :
    descriptionParts sampleBigIssue
      = ["GitHub Issue: [u](u)", "\n\n---\n\n" ++ sampleBigBody] := by
  have hne : (sampleBigBody == "") = false := by decide
  simp [descriptionParts, sampleBigIssue, hne]

/-- Helper: the sample big issue's raw description exceeds the cap. -/
theorem sampleBigIssue_over :
    (rawDescription sampleBigIssue).length > MAX_DESCRIPTION_LENGTH := by
  unfold rawDescription
  rw [sampleBigIssue_parts, join_cons_eq, join_cons_eq,
    show String.join [] = "" from rfl, String.append_empty,
    String.length_append, String.length_append, sampleBigBody_length]
  decide

/-- Helper: the sample big issue's truncation marker plus buffer fits the cap. -/
theorem sampleBigIssue_marker_fits :
    (truncationMessage sampleBigIssue).length + 10 ≤ MAX_DESCRIPTION_LENGTH := by
  have hbl : bodyLength sampleBigIssue = 10001 := sampleBigBody_length
  unfold truncationMessage
  rw [hbl]
  decide

/-- C6 witness: a 10001-character body is truncated below the cap with the
marker present. -/
theorem description_truncation_safety_witness :
    (rawDescription sampleBigIssue).length > MAX_DESCRIPTION_LENGTH
    ∧ (truncationMessage sampleBigIssue).length + 10 ≤ MAX_DESCRIPTION_LENGTH
    ∧ (composedDescription sampleBigIssue).length ≤ MAX_DESCRIPTION_LENGTH
    ∧ jsIncludes (composedDescription sampleBigIssue) (truncationMessage sampleBigIssue)
      = true :=
  ⟨sampleBigIssue_over, sampleBigIssue_marker_fits,
    (description_truncation_safety sampleBigIssue sampleBigIssue_over
      sampleBigIssue_marker_fits).1,
    (description_truncation_safety sampleBigIssue sampleBigIssue_over
      sampleBigIssue_marker_fits).2.2.1⟩

/-- Helper: the create fallback never reports not-found. -/
theorem createStep_result_ne (env : SyncEnv) : (createStep env).result ≠ .errNotFound := by
  unfold createStep
  split <;> simp

/-- Helper: at recursion depth ≥ 1 no further recursion happens: the result is
never the not-found error and at most one re-scan is run. -/
theorem syncCardFlow_depth_ge_one (env : SyncEnv) (nu : CardInfo → Bool)
    (existing : Option CardInfo) (depth k : Nat) (hd : 1 ≤ depth) :
    (syncCardFlow env nu existing depth k).result ≠ .errNotFound
    ∧ (syncCardFlow env nu existing depth k).rescans ≤ 1 := by
  cases existing with
  | none =>
    rw [syncCardFlow]
    exact ⟨createStep_result_ne env, by unfold createStep; split <;> simp⟩
  | some c =>
    rw [syncCardFlow]
    by_cases hnu : nu c
    · simp only [hnu, Bool.not_true, Bool.false_eq_true, if_false]
      cases hu : env.update c.publicId with
      | ok => simp
      | otherError m => simp
      | notFound =>
        dsimp only
        cases hr : env.rescan k with
        | none =>
          dsimp only
          exact ⟨createStep_result_ne env, by unfold createStep; split <;> simp⟩
        | some c2 =>
          dsimp only
          rw [dif_neg (by omega : ¬(c2.publicId ≠ c.publicId ∧ depth < 1))]
          exact ⟨createStep_result_ne env, by unfold createStep; split <;> simp⟩
    · simp only [hnu]
      simp

/-- Helper: no `syncCardFlow` call, at any depth, returns the not-found
error. -/
theorem syncCardFlow_no_notFound (env : SyncEnv) (nu : CardInfo → Bool)
    (existing : Option CardInfo) (depth k : Nat) :
    (syncCardFlow env nu existing depth k).result ≠ .errNotFound := by
  rcases Nat.eq_zero_or_pos depth with hd | hd
  · subst hd
    cases existing with
    | none =>
      rw [syncCardFlow]
      exact createStep_result_ne env
    | some c =>
      rw [syncCardFlow]
      by_cases hnu : nu c
      · simp only [hnu, Bool.not_true, Bool.false_eq_true, if_false]
        cases hu : env.update c.publicId with
        | ok => simp
        | otherError m => simp
        | notFound =>
          dsimp only
          cases hr : env.rescan k with
          | none =>
            dsimp only
            exact createStep_result_ne env
          | some c2 =>
            dsimp only
            by_cases hcc : c2.publicId ≠ c.publicId ∧ (0 : Nat) < 1
            · rw [dif_pos hcc]
              exact (syncCardFlow_depth_ge_one env nu (some c2) 1 (k + 1) le_rfl).1
            · rw [dif_neg hcc]
              exact createStep_result_ne env
      · simp only [hnu]
        simp
  · exact (syncCardFlow_depth_ge_one env nu existing depth k hd).1

/-- Helper: the depth-0 step of `syncCardFlow` when the re-scan finds no card:
one re-scan, then the create fallback. -/
theorem syncCardFlow_step_none (env : SyncEnv) (nu : CardInfo → Bool) (c : CardInfo)
    (hn : nu c = true) (h404 : env.update c.publicId = .notFound)
    (hr : env.rescan 0 = none) :
    syncCardFlow env nu (some c) 0 0
      = ⟨(createStep env).result, (createStep env).rescans + 1, [c.publicId],
          (createStep env).createTried⟩ := by
  rw [syncCardFlow]
  simp only [hn, Bool.not_true, Bool.false_eq_true, if_false, h404, hr]

/-- Helper: the depth-0 step of `syncCardFlow` when the re-scan finds a card
with a different id: one re-scan, then the depth-1 retry. -/
theorem syncCardFlow_step_some_ne (env : SyncEnv) (nu : CardInfo → Bool)
    (c d : CardInfo) (hn : nu c = true) (h404 : env.update c.publicId = .notFound)
    (hr : env.rescan 0 = some d) (hne : d.publicId ≠ c.publicId) :
    syncCardFlow env nu (some c) 0 0
      = ⟨(syncCardFlow env nu (some d) 1 1).result,
          (syncCardFlow env nu (some d) 1 1).rescans + 1,
          c.publicId :: (syncCardFlow env nu (some d) 1 1).updatesTried,
          (syncCardFlow env nu (some d) 1 1).createTried⟩ := by
  rw [syncCardFlow]
  simp only [hn, Bool.not_true, Bool.false_eq_true, if_false, h404, hr]
  rw [dif_pos ⟨hne, Nat.zero_lt_one⟩]

/-- Helper: the depth-0 step of `syncCardFlow` when the re-scan returns the
same stale id: one re-scan, then the create fallback. -/
theorem syncCardFlow_step_some_eq (env : SyncEnv) (nu : CardInfo → Bool)
    (c d : CardInfo) (hn : nu c = true) (h404 : env.update c.publicId = .notFound)
    (hr : env.rescan 0 = some d) (heq : d.publicId = c.publicId) :
    syncCardFlow env nu (some c) 0 0
      = ⟨(createStep env).result, (createStep env).rescans + 1, [c.publicId],
          (createStep env).createTried⟩ := by
  rw [syncCardFlow]
  simp only [hn, Bool.not_true, Bool.false_eq_true, if_false, h404, hr]
  rw [dif_neg (by simp [heq])]

/-- C8 counterexample: with every PATCH answering not-found and every re-scan
resolving a fresh different card, one `syncIssueCard` call re-scans the board
twice — not exactly once — and falls back to creating a new card even though
the second re-scan did find a different card for the issue. -/
theorem sync404_rescans_twice :
    (syncCardFlow envDouble404 (fun _ => true) (some cardA) 0 0).rescans = 2
    ∧ (syncCardFlow envDouble404 (fun _ => true) (some cardA) 0 0).createTried = true
    ∧ envDouble404.rescan 1 = some cardC
    ∧ cardC.publicId ≠ cardB.publicId := by
  refine ⟨?_, ?_, rfl, by decide⟩ <;>
  · rw [syncCardFlow]
    simp [envDouble404, cardA, cardB, createStep]
    rw [syncCardFlow]
    simp [envDouble404, cardB, cardC, createStep]

/-- C8 (amended): each not-found update failure triggers exactly one board
re-scan — hence one call runs at most two re-scans; at the top level a
different card found by the re-scan is updated instead (recursion bounded to
one level); when the re-scan finds no card, or only the same stale id, the
call creates a new card after that single re-scan; and the not-found error is
never returned, whatever the remote does. -/
theorem sync404_recovery (env : SyncEnv) (nu : CardInfo → Bool) (c c2 : CardInfo)
    (existing : Option CardInfo) (depth k : Nat)
    (hn : nu c = true) (h404 : env.update c.publicId = .notFound) :
    (syncCardFlow env nu existing depth k).result ≠ .errNotFound
    ∧ 1 ≤ (syncCardFlow env nu (some c) 0 0).rescans
    ∧ (syncCardFlow env nu (some c) 0 0).rescans ≤ 2
    ∧ (env.rescan 0 = none →
        (syncCardFlow env nu (some c) 0 0).createTried = true
        ∧ (syncCardFlow env nu (some c) 0 0).rescans = 1)
    ∧ (env.rescan 0 = some c2 → c2.publicId = c.publicId →
        (syncCardFlow env nu (some c) 0 0).createTried = true
        ∧ (syncCardFlow env nu (some c) 0 0).rescans = 1)
    ∧ (env.rescan 0 = some c2 → c2.publicId ≠ c.publicId → nu c2 = true →
        env.update c2.publicId = .ok →
        (syncCardFlow env nu (some c) 0 0).result = .wroteUpdate
        ∧ (syncCardFlow env nu (some c) 0 0).rescans = 1
        ∧ (syncCardFlow env nu (some c) 0 0).updatesTried = [c.publicId, c2.publicId]) := by
  refine ⟨syncCardFlow_no_notFound env nu existing depth k, ?_, ?_, ?_, ?_, ?_⟩
  · cases hr : env.rescan 0 with
    | none =>
      rw [syncCardFlow_step_none env nu c hn h404 hr]
      simp
    | some d =>
      by_cases hne : d.publicId = c.publicId
      · rw [syncCardFlow_step_some_eq env nu c d hn h404 hr hne]
        simp
      · rw [syncCardFlow_step_some_ne env nu c d hn h404 hr hne]
        simp
  · cases hr : env.rescan 0 with
    | none =>
      rw [syncCardFlow_step_none env nu c hn h404 hr]
      unfold createStep
      split <;> simp
    | some d =>
      by_cases hne : d.publicId = c.publicId
      · rw [syncCardFlow_step_some_eq env nu c d hn h404 hr hne]
        unfold createStep
        split <;> simp
      · rw [syncCardFlow_step_some_ne env nu c d hn h404 hr hne]
        have := (syncCardFlow_depth_ge_one env nu (some d) 1 1 le_rfl).2
        dsimp only
        omega
  · intro hr
    rw [syncCardFlow_step_none env nu c hn h404 hr]
    unfold createStep
    split <;> simp
  · intro hr heq
    rw [syncCardFlow_step_some_eq env nu c c2 hn h404 hr heq]
    unfold createStep
    split <;> simp
  · intro hr hne hnu2 hok
    rw [syncCardFlow_step_some_ne env nu c c2 hn h404 hr hne]
    have hinner : syncCardFlow env nu (some c2) 1 1
        = ⟨.wroteUpdate, 0, [c2.publicId], false⟩ := by
      rw [syncCardFlow]
      simp only [hnu2, Bool.not_true, Bool.false_eq_true, if_false, hok]
    rw [hinner]
    simp

/-- C8 witness: a stale card id is healed by one re-scan and one retried
update, with no error surfaced. -/
theorem sync404_recovery_witness :
    ((fun _ => true : CardInfo → Bool) cardA = true)
    ∧ envRecover.update cardA.publicId = .notFound
    ∧ (syncCardFlow envRecover (fun _ => true) (some cardA) 0 0).result = .wroteUpdate
    ∧ (syncCardFlow envRecover (fun _ => true) (some cardA) 0 0).rescans = 1
    ∧ (syncCardFlow envRecover (fun _ => true) (some cardA) 0 0).updatesTried
      = [cardA.publicId, cardB.publicId] :=
  ⟨rfl, rfl,
    ((sync404_recovery envRecover (fun _ => true) cardA cardB none 0 0 rfl
        rfl).2.2.2.2.2 rfl (by decide) rfl rfl).1,
    ((sync404_recovery envRecover (fun _ => true) cardA cardB none 0 0 rfl
        rfl).2.2.2.2.2 rfl (by decide) rfl rfl).2.1,
    ((sync404_recovery envRecover (fun _ => true) cardA cardB none 0 0 rfl
        rfl).2.2.2.2.2 rfl (by decide) rfl rfl).2.2⟩

/-- Helper: every iteration of the per-issue loop attempts exactly one issue. -/
theorem countsStep_attempted (env : Phase2Env) (repo : String) (acc : RepoCounts)
    (i : Nat) : (countsStep env repo acc i).attempted = acc.attempted + 1 := by
  unfold countsStep
  cases env.syncIssue repo i with
  | synced wrote =>
    dsimp only
    split_ifs <;> rfl
  | failed m => rfl

/-- Helper: an iteration adds one error exactly when the issue sync failed. -/
theorem countsStep_errors (env : Phase2Env) (repo : String) (acc : RepoCounts)
    (i : Nat) :
    (countsStep env repo acc i).errors
      = acc.errors + (if isFailedSync (env.syncIssue repo i) then 1 else 0) := by
  unfold countsStep
  cases env.syncIssue repo i with
  | synced wrote =>
    dsimp only
    rw [show isFailedSync (.synced wrote) = false from rfl]
    split_ifs <;> simp_all
  | failed m => simp [isFailedSync]

/-- Helper: the per-issue loop attempts every fetched issue. -/
theorem runIssues_loop_attempted (env : Phase2Env) (repo : String) :
    ∀ (issues : List Nat) (acc : RepoCounts),
      (issues.foldl (countsStep env repo) acc).attempted = acc.attempted + issues.length
  | [], acc => by simp
  | i :: rest, acc => by
    rw [List.foldl_cons, runIssues_loop_attempted env repo rest (countsStep env repo acc i),
      countsStep_attempted]
    simp
    omega

/-- Helper: the per-issue loop counts exactly the failing issues as errors. -/
theorem runIssues_loop_errors (env : Phase2Env) (repo : String) :
    ∀ (issues : List Nat) (acc : RepoCounts),
      (issues.foldl (countsStep env repo) acc).errors
        = acc.errors
          + (issues.filter (fun i => isFailedSync (env.syncIssue repo i))).length
  | [], acc => by simp
  | i :: rest, acc => by
    rw [List.foldl_cons, runIssues_loop_errors env repo rest (countsStep env repo acc i),
      countsStep_errors]
    by_cases h : isFailedSync (env.syncIssue repo i)
    · simp [h, Nat.add_assoc, Nat.add_comm]
    · simp [h]

/-- C9: a rate-limit failure of a repository's issue fetch ends the phase-2
loop — every remaining repository is skipped — and the sweep still returns
normally; whereas per-issue failures only increment the repository's error
count while every fetched issue is still attempted. -/
theorem phase2_rate_limit_isolation (env : Phase2Env) (repo : String)
    (rest : List String) (issues : List Nat)
    (hb : env.boardReady repo = true)
    (hrl : env.fetchIssues repo = .rateLimitErr) :
    phase2 env (repo :: rest) = [(repo, .fetchFailed)]
    ∧ (runIssues env repo issues).attempted = issues.length
    ∧ (runIssues env repo issues).errors
      = (issues.filter (fun i => isFailedSync (env.syncIssue repo i))).length := by
  refine ⟨?_, ?_, ?_⟩
  · simp [phase2, hb, hrl]
  · unfold runIssues
    rw [runIssues_loop_attempted]
    simp
  · unfold runIssues
    rw [runIssues_loop_errors]
    simp

/-- C9 witness: with issue fetches rate-limited, only the first repository is
touched; in a three-issue sweep with one failing issue every issue is still
attempted and exactly the failure is counted. -/
theorem phase2_rate_limit_isolation_witness :
    samplePhase2Env.boardReady "r1" = true
    ∧ samplePhase2Env.fetchIssues "r1" = .rateLimitErr
    ∧ (phase2 samplePhase2Env ["r1", "r2"] = [("r1", .fetchFailed)]
        ∧ (runIssues samplePhase2Env "r1" [1, 2, 3]).attempted = [1, 2, 3].length
        ∧ (runIssues samplePhase2Env "r1" [1, 2, 3]).errors
          = ([1, 2, 3].filter
              (fun i => isFailedSync (samplePhase2Env.syncIssue "r1" i))).length) :=
  ⟨rfl, rfl,
    (phase2_rate_limit_isolation samplePhase2Env "r1" ["r2"] [1, 2, 3] rfl rfl).1,
    (phase2_rate_limit_isolation samplePhase2Env "r1" ["r2"] [1, 2, 3] rfl rfl).2.1,
    (phase2_rate_limit_isolation samplePhase2Env "r1" ["r2"] [1, 2, 3] rfl rfl).2.2⟩

/-- Helper: membership in the first-occurrence deduplication. -/
theorem mem_firstDedupAux : ∀ (l seen : List Nat) (n : Nat),
    n ∈ firstDedupAux seen l ↔ n ∈ l ∧ n ∉ seen
  | [], seen, n => by simp [firstDedupAux]
  | m :: rest, seen, n => by
    unfold firstDedupAux
    by_cases hms : seen.contains m
    · rw [if_pos hms]
      have hmem : m ∈ seen := List.elem_iff.mp hms
      rw [mem_firstDedupAux rest seen n]
      by_cases hnm : n = m
      · subst hnm
        simp [hmem]
      · simp [hnm]
    · rw [if_neg hms]
      have hmem : m ∉ seen := fun h => hms (List.elem_iff.mpr h)
      by_cases hnm : n = m
      · subst hnm
        simp [hmem]
      · simp only [List.mem_cons, hnm, false_or]
        rw [mem_firstDedupAux rest (m :: seen) n]
        simp [hnm]

/-- Helper: the first-occurrence deduplication yields distinct keys. -/
theorem nodup_firstDedupAux : ∀ (l seen : List Nat), (firstDedupAux seen l).Nodup
  | [], seen => by simp [firstDedupAux]
  | m :: rest, seen => by
    unfold firstDedupAux
    by_cases hms : seen.contains m
    · rw [if_pos hms]
      exact nodup_firstDedupAux rest seen
    · rw [if_neg hms]
      refine List.Nodup.cons ?_ (nodup_firstDedupAux rest (m :: seen))
      intro hmm
      exact ((mem_firstDedupAux rest (m :: seen) m).mp hmm).2 (List.mem_cons_self m seen)

/-- Helper: the issue keys of a board are distinct. -/
theorem nodup_issueNumbersOrder (url : String) (board : Board) :
    (issueNumbersOrder url board).Nodup :=
  nodup_firstDedupAux _ []

/-- Helper: membership in the board's extracted issue numbers. -/
theorem mem_issueNumbersOrder (url : String) (board : Board) (n : Nat) :
    n ∈ issueNumbersOrder url board
      ↔ ∃ c ∈ allCards board, extractIssueNumber url c = some n := by
  unfold issueNumbersOrder firstDedup
  rw [mem_firstDedupAux]
  simp [List.mem_filterMap]

/-- Helper: a bucket member is a board card extracting to the bucket's key. -/
theorem mem_cardsForIssue (url : String) (board : Board) (n : Nat) (c : CardInfo) :
    c ∈ cardsForIssue url board n
      ↔ c ∈ allCards board ∧ extractIssueNumber url c = some n := by
  unfold cardsForIssue
  rw [List.mem_filter]
  simp

/-- Helper: the survivor of a nonempty bucket. -/
theorem survivorFor_eq (url : String) (board : Board) (n : Nat) (d : CardInfo)
    (ds : List CardInfo) (hl : cardsForIssue url board n = d :: ds) :
    survivorFor url board n
      = some ((List.find? (fun card => jsStartsWith card.title (canonicalTag n))
          (d :: ds)).getD d) := by
  unfold survivorFor
  rw [hl]

/-- Helper: the survivor belongs to its bucket. -/
theorem survivor_mem (url : String) (board : Board) (n : Nat) (best : CardInfo)
    (h : survivorFor url board n = some best) :
    best ∈ cardsForIssue url board n := by
  rcases hl : cardsForIssue url board n with _ | ⟨d, ds⟩
  · unfold survivorFor at h
    rw [hl] at h
    exact absurd h (by simp)
  · rw [survivorFor_eq url board n d ds hl] at h
    rcases hf : List.find? (fun card => jsStartsWith card.title (canonicalTag n))
        (d :: ds) with _ | e
    · rw [hf] at h
      simp only [Option.getD_none, Option.some.injEq] at h
      rw [← h]
      exact List.mem_cons_self d ds
    · rw [hf] at h
      simp only [Option.getD_some, Option.some.injEq] at h
      rw [← h]
      exact List.mem_of_find?_eq_some hf

/-- Helper: one step of an association-list lookup. -/
theorem lookupCard_cons (k : Nat) (c : CardInfo) (rest : List (Nat × CardInfo))
    (n : Nat) :
    lookupCard ((k, c) :: rest) n = if k == n then some c else lookupCard rest n := by
  cases h : (k == n) with
  | false => simp [lookupCard, List.find?_cons, h]
  | true => simp [lookupCard, List.find?_cons, h]

/-- Helper: looking up a key of the survivor map returns its survivor. -/
theorem lookup_cardMapList_aux (url : String) (board : Board) (n : Nat)
    (c : CardInfo) (hs : survivorFor url board n = some c) :
    ∀ keys : List Nat, n ∈ keys →
      lookupCard (keys.filterMap
        (fun m => (survivorFor url board m).map (fun cc => (m, cc)))) n = some c
  | [], hmem => absurd hmem (by simp)
  | k :: rest, hmem => by
    rw [List.filterMap_cons]
    by_cases hkn : k = n
    · subst hkn
      rw [hs]
      rw [show Option.map (fun cc => (k, cc)) (some c) = some (k, c) from rfl]
      rw [lookupCard_cons]
      simp
    · have hnr : n ∈ rest := by
        rcases List.mem_cons.mp hmem with h | h
        · exact absurd h.symm hkn
        · exact h
      rcases hsk : survivorFor url board k with _ | ck
      · exact lookup_cardMapList_aux url board n c hs rest hnr
      · rw [show Option.map (fun cc => (k, cc)) (some ck) = some (k, ck) from rfl]
        rw [lookupCard_cons, if_neg (by simp [hkn])]
        exact lookup_cardMapList_aux url board n c hs rest hnr

/-- Helper: the key column of the survivor map is a sublist of the issue
numbers. -/
theorem cardMapList_keys_sublist (url : String) (board : Board) :
    ∀ keys : List Nat,
      List.Sublist ((keys.filterMap
        (fun m => (survivorFor url board m).map (fun cc => (m, cc)))).map Prod.fst) keys
  | [] => by simp
  | k :: rest => by
    rw [List.filterMap_cons]
    rcases hsk : survivorFor url board k with _ | ck
    · exact List.Sublist.cons k (cardMapList_keys_sublist url board rest)
    · simpa using List.Sublist.cons₂ k (cardMapList_keys_sublist url board rest)

/-- Helper: membership in the deletion worklist. -/
theorem mem_duplicatesToDelete (url : String) (board : Board) (n : Nat)
    (d : CardInfo) :
    (n, d) ∈ duplicatesToDelete url board
      ↔ n ∈ issueNumbersOrder url board ∧ d ∈ duplicatesFor url board n := by
  unfold duplicatesToDelete
  rw [List.mem_flatMap]
  constructor
  · rintro ⟨m, hm, hd⟩
    rcases List.mem_map.mp hd with ⟨e, he, heq⟩
    have hmn : m = n := congrArg Prod.fst heq
    have hed : e = d := congrArg Prod.snd heq
    subst hmn
    subst hed
    exact ⟨hm, he⟩
  · rintro ⟨hn, hd⟩
    exact ⟨n, hn, List.mem_map.mpr ⟨d, hd, rfl⟩⟩

/-- Helper: membership in one issue's duplicate set. -/
theorem mem_duplicatesFor (url : String) (board : Board) (n : Nat) (d : CardInfo) :
    d ∈ duplicatesFor url board n
      ↔ ∃ best, survivorFor url board n = some best
          ∧ d ∈ cardsForIssue url board n ∧ d.publicId ≠ best.publicId := by
  unfold duplicatesFor
  rcases hs : survivorFor url board n with _ | best
  · simp
  · rw [List.mem_filter]
    constructor
    · rintro ⟨hmem, hne⟩
      refine ⟨best, rfl, hmem, ?_⟩
      simpa using hne
    · rintro ⟨b2, hb2, hmem, hne⟩
      injection hb2 with hbb
      subst hbb
      refine ⟨hmem, ?_⟩
      simpa using hne

/-- Helper: deleting cards filters the board's card multiset. -/
theorem allCards_applyDeletions (url : String) (board : Board) :
    allCards (applyDeletions url board)
      = (allCards board).filter
          (fun c => !((deleteIds url board).contains c.publicId)) := by
  unfold applyDeletions
  generalize (fun c : CardInfo => !((deleteIds url board).contains c.publicId)) = f
  induction board with
  | nil => rfl
  | cons l rest ih =>
    simp only [List.map_cons, allCards, List.flatten_cons, List.filter_append] at ih ⊢
    rw [ih]

/-- Helper: with distinct key images, filtering a list to one key image leaves
exactly the witness. -/
theorem filter_eq_singleton_of_nodup_map {α β : Type} [DecidableEq β] (f : α → β) :
    ∀ (l : List α) (b : α), (l.map f).Nodup → b ∈ l →
      l.filter (fun x => decide (f x = f b)) = [b]
  | [], b, _, hb => absurd hb (by simp)
  | x :: xs, b, hnd, hb => by
    rw [List.map_cons, List.nodup_cons] at hnd
    obtain ⟨hx_notin, hnd2⟩ := hnd
    rcases List.mem_cons.mp hb with hbx | hbxs
    · subst hbx
      rw [List.filter_cons_of_pos (by simp)]
      have hxs : xs.filter (fun y => decide (f y = f b)) = [] := by
        rw [List.filter_eq_nil_iff]
        intro y hy
        simp only [decide_eq_true_eq]
        intro hfy
        exact hx_notin (List.mem_map.mpr ⟨y, hy, hfy⟩)
      rw [hxs]
    · have hfx : f x ≠ f b := by
        intro hfeq
        refine hx_notin ?_
        rw [hfeq]
        exact List.mem_map.mpr ⟨b, hbxs, rfl⟩
      rw [List.filter_cons_of_neg (by simp [hfx])]
      exact filter_eq_singleton_of_nodup_map f xs b hnd2 hbxs

/-- Helper: `publicId` is injective on a board whose card ids are distinct. -/
theorem publicId_inj (board : Board)
    (hids : ((allCards board).map CardInfo.publicId).Nodup)
    (a b : CardInfo) (ha : a ∈ allCards board) (hb : b ∈ allCards board)
    (hab : a.publicId = b.publicId) : a = b :=
  List.inj_on_of_nodup_map hids ha hb hab

/-- Helper: a card of issue `n` other than the survivor has its id submitted
for deletion. -/
theorem deleteIds_mem_of_dup (url : String) (board : Board) (n : Nat)
    (best d : CardInfo) (hsur : survivorFor url board n = some best)
    (hd : d ∈ cardsForIssue url board n) (hdne : d.publicId ≠ best.publicId) :
    d.publicId ∈ deleteIds url board := by
  have hn : n ∈ issueNumbersOrder url board := by
    rw [mem_issueNumbersOrder]
    rcases (mem_cardsForIssue url board n d).mp hd with ⟨hall, hext⟩
    exact ⟨d, hall, hext⟩
  have hdup : (n, d) ∈ duplicatesToDelete url board := by
    rw [mem_duplicatesToDelete]
    exact ⟨hn, (mem_duplicatesFor url board n d).mpr ⟨best, hsur, hd, hdne⟩⟩
  exact List.mem_map.mpr ⟨(n, d), hdup, rfl⟩

/-- Helper: the survivor's id is never submitted for deletion. -/
theorem survivor_id_not_deleted (url : String) (board : Board) (n : Nat)
    (best : CardInfo)
    (hids : ((allCards board).map CardInfo.publicId).Nodup)
    (hsur : survivorFor url board n = some best) :
    best.publicId ∉ deleteIds url board := by
  intro hmem
  rcases List.mem_map.mp hmem with ⟨⟨m, e⟩, hpair, hide⟩
  rcases (mem_duplicatesToDelete url board m e).mp hpair with ⟨_, hdupe⟩
  rcases (mem_duplicatesFor url board m e).mp hdupe with ⟨bm, hsm, hem, hneq⟩
  have hbest_mem := survivor_mem url board n best hsur
  rcases (mem_cardsForIssue url board n best).mp hbest_mem with ⟨hballs, hbext⟩
  rcases (mem_cardsForIssue url board m e).mp hem with ⟨healls, heext⟩
  have hebest : e = best := publicId_inj board hids e best healls hballs hide
  subst hebest
  have hmn : m = n := by
    rw [hbext] at heext
    exact (Option.some.injEq _ _ ▸ heext).symm ▸ rfl
  subst hmn
  rw [hsur] at hsm
  injection hsm with hbm
  subst hbm
  exact hneq rfl

/-- C1: for every processed board snapshot, the returned map has distinct issue
keys (at most one card per extracted issue number), maps each extracted issue
number to its survivor, submits every other card of that issue for deletion,
and — once those deletions take effect — the next cycle's board holds exactly
one live card for the issue. -/
theorem cardMap_unique_per_issue (url : String) (board : Board) (n : Nat)
    (best d : CardInfo)
    (hids : ((allCards board).map CardInfo.publicId).Nodup)
    (hsur : survivorFor url board n = some best) :
    ((cardMapList url board).map Prod.fst).Nodup
    ∧ best ∈ cardsForIssue url board n
    ∧ lookupCard (cardMapList url board) n = some best
    ∧ (d ∈ cardsForIssue url board n → d.publicId ≠ best.publicId →
        (n, d) ∈ duplicatesToDelete url board)
    ∧ cardsForIssue url (applyDeletions url board) n = [best] := by
  have hbest_mem := survivor_mem url board n best hsur
  have hn : n ∈ issueNumbersOrder url board := by
    rw [mem_issueNumbersOrder]
    rcases (mem_cardsForIssue url board n best).mp hbest_mem with ⟨hall, hext⟩
    exact ⟨best, hall, hext⟩
  refine ⟨?_, hbest_mem, ?_, ?_, ?_⟩
  · exact (nodup_issueNumbersOrder url board).sublist
      (cardMapList_keys_sublist url board (issueNumbersOrder url board))
  · exact lookup_cardMapList_aux url board n best hsur _ hn
  · intro hd hdne
    rw [mem_duplicatesToDelete]
    exact ⟨hn, (mem_duplicatesFor url board n d).mpr ⟨best, hsur, hd, hdne⟩⟩
  · have hstep1 : cardsForIssue url (applyDeletions url board) n
        = (cardsForIssue url board n).filter
            (fun c => !((deleteIds url board).contains c.publicId)) := by
      unfold cardsForIssue
      rw [allCards_applyDeletions, List.filter_filter, List.filter_filter]
      exact List.filter_congr (fun c _ => Bool.and_comm _ _)
    have hstep2 : (cardsForIssue url board n).filter
          (fun c => !((deleteIds url board).contains c.publicId))
        = (cardsForIssue url board n).filter
            (fun c => decide (c.publicId = best.publicId)) := by
      refine List.filter_congr ?_
      intro c hc
      by_cases hcb : c.publicId = best.publicId
      · have hnotdel : c.publicId ∉ deleteIds url board := by
          rw [hcb]
          exact survivor_id_not_deleted url board n best hids hsur
        have hcf : (deleteIds url board).contains c.publicId = false := by
          rcases hcon : (deleteIds url board).contains c.publicId with _ | _
          · rfl
          · exact absurd (List.elem_iff.mp hcon) hnotdel
        rw [hcf]
        simp [hcb]
      · have hdel : c.publicId ∈ deleteIds url board :=
          deleteIds_mem_of_dup url board n best c hsur hc hcb
        have hct : (deleteIds url board).contains c.publicId = true :=
          List.elem_iff.mpr hdel
        rw [hct]
        simp [hcb]
    have hnodup_bucket : ((cardsForIssue url board n).map CardInfo.publicId).Nodup :=
      hids.sublist ((List.filter_sublist (allCards board)).map CardInfo.publicId)
    rw [hstep1, hstep2]
    exact filter_eq_singleton_of_nodup_map CardInfo.publicId
      (cardsForIssue url board n) best hnodup_bucket hbest_mem

/-- C1 witness: on a board with a legacy and a canonical card for issue 5, the
map keeps the canonical card, the legacy card is submitted for deletion, and
the deletion-applied board has exactly one live card for issue 5. -/
theorem cardMap_unique_per_issue_witness :
    ((allCards dupBoard).map CardInfo.publicId).Nodup
    ∧ survivorFor sampleRepoUrl dupBoard 5 = some cTagged
    ∧ cNoTag ∈ cardsForIssue sampleRepoUrl dupBoard 5
    ∧ cNoTag.publicId ≠ cTagged.publicId
    ∧ (lookupCard (cardMapList sampleRepoUrl dupBoard) 5 = some cTagged
        ∧ (5, cNoTag) ∈ duplicatesToDelete sampleRepoUrl dupBoard
        ∧ cardsForIssue sampleRepoUrl (applyDeletions sampleRepoUrl dupBoard) 5
          = [cTagged]) :=
  ⟨by decide, by decide, by decide, by decide,
    (cardMap_unique_per_issue sampleRepoUrl dupBoard 5 cTagged cNoTag (by decide)
      (by decide)).2.2.1,
    (cardMap_unique_per_issue sampleRepoUrl dupBoard 5 cTagged cNoTag (by decide)
      (by decide)).2.2.2.1 (by decide) (by decide),
    (cardMap_unique_per_issue sampleRepoUrl dupBoard 5 cTagged cNoTag (by decide)
      (by decide)).2.2.2.2⟩

/-- Helper: `find?` takes a tagged head. -/
theorem find?_tag_cons_pos (n : Nat) (c : CardInfo) (l : List CardInfo)
    (h : jsStartsWith c.title (canonicalTag n) = true) :
    List.find? (fun card => jsStartsWith card.title (canonicalTag n)) (c :: l)
      = some c := by
  simp [List.find?_cons, h]

/-- Helper: `find?` skips an untagged head. -/
theorem find?_tag_cons_neg (n : Nat) (c : CardInfo) (l : List CardInfo)
    (h : jsStartsWith c.title (canonicalTag n) = false) :
    List.find? (fun card => jsStartsWith card.title (canonicalTag n)) (c :: l)
      = List.find? (fun card => jsStartsWith card.title (canonicalTag n)) l := by
  simp [List.find?_cons, h]

/-- C2: duplicate resolution is deterministic: the survivor is the first
bucket card whose title starts with the canonical `#N:` tag, else the first
bucket card; in particular, for a two-card bucket the tagged card always
survives; and the returned map does not depend on the per-card deletion
outcomes (deletion failures cannot abort the cycle or change the map). -/
theorem duplicate_survivor_determinism (url : String) (board : Board) (n : Nat)
    (pre post tail : List CardInfo) (c c1 c2 : CardInfo) (fetch : FetchResult)
    (d1 d2 : String → Bool) :
    (cardsForIssue url board n = pre ++ c :: post →
      (pre.all (fun p => !(jsStartsWith p.title (canonicalTag n)))) = true →
      jsStartsWith c.title (canonicalTag n) = true →
      survivorFor url board n = some c)
    ∧ (cardsForIssue url board n = [c1, c2] →
        jsStartsWith c1.title (canonicalTag n) = true →
        survivorFor url board n = some c1)
    ∧ (cardsForIssue url board n = [c1, c2] →
        jsStartsWith c1.title (canonicalTag n) = false →
        jsStartsWith c2.title (canonicalTag n) = true →
        survivorFor url board n = some c2)
    ∧ (cardsForIssue url board n = c1 :: tail →
        ((c1 :: tail).all (fun p => !(jsStartsWith p.title (canonicalTag n)))) = true →
        survivorFor url board n = some c1)
    ∧ (getAllBoardCardsRun url fetch d1).1 = (getAllBoardCardsRun url fetch d2).1 := by
  have hfind_none : ∀ (l : List CardInfo),
      (l.all (fun p => !(jsStartsWith p.title (canonicalTag n)))) = true →
      List.find? (fun card => jsStartsWith card.title (canonicalTag n)) l = none := by
    intro l hall
    rw [List.find?_eq_none]
    intro x hx
    have := List.all_eq_true.mp hall x hx
    simp at this
    simp [this]
  refine ⟨?_, ?_, ?_, ?_, ?_⟩
  · intro hsplit hpre htag
    rcases hp : pre with _ | ⟨p0, pre'⟩
    · subst hp
      rw [List.nil_append] at hsplit
      rw [survivorFor_eq url board n c post hsplit]
      rw [find?_tag_cons_pos n c post htag]
      rfl
    · have hsplit' : cardsForIssue url board n = p0 :: (pre' ++ c :: post) := by
        rw [hsplit, hp]
        rfl
      rw [survivorFor_eq url board n p0 (pre' ++ c :: post) hsplit']
      subst hp
      have hfind : List.find? (fun card => jsStartsWith card.title (canonicalTag n))
          (p0 :: (pre' ++ c :: post)) = some c := by
        rw [show p0 :: (pre' ++ c :: post) = (p0 :: pre') ++ c :: post from rfl,
          List.find?_append, hfind_none (p0 :: pre') hpre,
          find?_tag_cons_pos n c post htag]
        rfl
      rw [hfind]
      rfl
  · intro hl htag
    rw [survivorFor_eq url board n c1 [c2] hl, find?_tag_cons_pos n c1 [c2] htag]
    rfl
  · intro hl htag1 htag2
    rw [survivorFor_eq url board n c1 [c2] hl,
      find?_tag_cons_neg n c1 [c2] htag1,
      find?_tag_cons_pos n c2 [] htag2]
    rfl
  · intro hl hall
    rw [survivorFor_eq url board n c1 tail hl, hfind_none _ hall]
    rfl
  · cases fetch <;> rfl

/-- C2 witness: for the two-card bucket of issue 5 where only the second card
carries the canonical `#5:` prefix, that card is the survivor, and the map is
the same whether deletions succeed or fail. -/
theorem duplicate_survivor_determinism_witness :
    cardsForIssue sampleRepoUrl dupBoard 5 = [cNoTag, cTagged]
    ∧ jsStartsWith cNoTag.title (canonicalTag 5) = false
    ∧ jsStartsWith cTagged.title (canonicalTag 5) = true
    ∧ survivorFor sampleRepoUrl dupBoard 5 = some cTagged
    ∧ (getAllBoardCardsRun sampleRepoUrl (.ok dupBoard) (fun _ => false)).1
      = (getAllBoardCardsRun sampleRepoUrl (.ok dupBoard) (fun _ => true)).1 :=
  ⟨by decide, by decide, by decide,
    (duplicate_survivor_determinism sampleRepoUrl dupBoard 5 [] [] [] cNoTag cNoTag
      cTagged (.ok dupBoard) (fun _ => false) (fun _ => true)).2.2.1 (by decide)
      (by decide) (by decide),
    (duplicate_survivor_determinism sampleRepoUrl dupBoard 5 [] [] [] cNoTag cNoTag
      cTagged (.ok dupBoard) (fun _ => false) (fun _ => true)).2.2.2.2⟩

end KGSync
